import Mathlib

/-!
Shallow embedding of the wsrpc client core (`client.go` and the dial/server
option files) and proofs about its connectivity state machine and call
multiplexer.

The Go code is translated definition by definition:
* `connectivity.State` → `ConnectivityState`
* `ClientConn.methodCalls` (a Go map from call id to result channel) →
  `CallTable`, an association list with Go-map insert/delete/lookup semantics
* `handleMessageResponse`, `registerMethodCall`, `removeMethodCall`,
  `Invoke`, `Close`, `Dial`, `newAddrConn`, `listenForRead`/`handleRead` →
  pure functions / step functions of the same names
* `addrConn` with `connect`, `teardown`, `resetTransport` (split into its
  lock-protected critical sections `retryTop`, `retryFail`, `retrySuccess`),
  and the `onClose` callback built by `createTransport`.

Channels are identified by natural numbers; a delivery on a channel is
recorded as a `(channel, payload)` pair.  Frames and payloads are `List Nat`
(byte sequences).  Each Go critical section (code between taking and
releasing a lock) becomes one atomic Lean function, so interleavings of the
concurrent tasks are sequences of these atomic steps.
-/

namespace Wsrpc

/-- `connectivity.State`: the five connectivity states. -/
inductive ConnectivityState
  | Idle
  | Connecting
  | Ready
  | TransientFailure
  | Shutdown
deriving DecidableEq, Repr

/-- The error values the client code can return (`errConnClosing`,
`"connection is not ready"`, `"call timeout"`, proto (un)marshal failures). -/
inductive RpcError
  | connClosing
  | notReady
  | callTimeout
  | marshalErr
  | unmarshalErr
deriving DecidableEq, Repr

/-- A `message.Response`: `CallId` and `Payload`. -/
structure Response where
  callId : String
  payload : List Nat
deriving DecidableEq, Repr

/-- `ClientConn.methodCalls`: the pending-call table, a Go map from call id
to the one-shot result channel (channels are numbered). -/
abbrev CallTable := List (String × Nat)

/-- Go-map lookup on the table. -/
def CallTable.lookupCall (t : CallTable) (id : String) : Option Nat :=
  t.lookup id

/-- `registerMethodCall`: `cc.methodCalls[id] = wait` (map insert; `ch` is
the freshly made wait channel). -/
def registerMethodCall (t : CallTable) (id : String) (ch : Nat) : CallTable :=
  (id, ch) :: t.filter (fun q => q.1 != id)

/-- `removeMethodCall`: `delete(cc.methodCalls, id)` (deleting an absent key
is a no-op, as for a Go map). -/
def removeMethodCall (t : CallTable) (id : String) : CallTable :=
  t.filter (fun q => q.1 != id)

/-- `handleMessageResponse`: under `cc.mu`, look the response's call id up in
the table; if present, send the payload on the call's channel and delete the
entry; otherwise do nothing.  Returns the new table and the deliveries
performed. -/
def handleMessageResponse (t : CallTable) (r : Response) :
    CallTable × List (Nat × List Nat) :=
  match t.lookupCall r.callId with
  | some ch => (removeMethodCall t r.callId, [(ch, r.payload)])
  | none => (t, [])

/-- A parsed inbound message (`message.Message`): the `Exchange` oneof. -/
inductive Message
  | request (callId method : String) (payload : List Nat)
  | response (r : Response)
deriving DecidableEq, Repr

/-- One inbound frame handled by `handleRead`'s dispatch switch (after a
successful unmarshal): a `Request` is only logged, a `Response` goes to
`handleMessageResponse`.  The final `Bool` records that the loop keeps
running after this frame. -/
def dispatchMessage (t : CallTable) (m : Message) :
    CallTable × List (Nat × List Nat) × Bool :=
  match m with
  | .request _ _ _ => (t, [], true)
  | .response r =>
      let (t1, sends) := handleMessageResponse t r
      (t1, sends, true)

theorem lookup_filter_ne (t : CallTable) (id : String) :
    (t.filter (fun q => q.1 != id)).lookup id = none := by
  induction t with
  | nil => rfl
  | cons hd tl ih =>
    by_cases h : hd.1 = id
    · simp [List.filter, h, ih]
    · have hb : (hd.1 != id) = true := by
        simp [bne, h]
      have hb' : (id == hd.1) = false := by
        simp [beq_iff_eq]
        exact fun hc => h hc.symm
      simp [List.filter, hb, List.lookup, hb', ih]

theorem lookup_remove_self (t : CallTable) (id : String) :
    (removeMethodCall t id).lookupCall id = none :=
  lookup_filter_ne t id

theorem remove_idem (t : CallTable) (id : String) :
    removeMethodCall (removeMethodCall t id) id = removeMethodCall t id := by
  simp [removeMethodCall, List.filter_filter]

theorem handleMessageResponse_absent (t : CallTable) (r : Response)
    (h : t.lookupCall r.callId = none) :
    handleMessageResponse t r = (t, []) := by
  simp [handleMessageResponse, h]

/-- C1: for a registered pending call, the entry is removed exactly once, by
whichever of dispatch delivery and Invoke timeout runs first; the loser
changes nothing (a losing timeout deletes nothing, a losing dispatch neither
delivers nor deletes), and a second frame with the same call id after
resolution is ignored. -/
theorem pending_call_resolved_exactly_once
    (t : CallTable) (id : String) (ch : Nat) (p p' : List Nat)
    (h : t.lookupCall id = some ch) :
    -- dispatch wins the race: it delivers the payload once and removes the entry
    (handleMessageResponse t ⟨id, p⟩).2 = [(ch, p)] ∧
    (handleMessageResponse t ⟨id, p⟩).1.lookupCall id = none ∧
    -- the losing timeout then removes nothing: the table is unchanged
    removeMethodCall (handleMessageResponse t ⟨id, p⟩).1 id =
      (handleMessageResponse t ⟨id, p⟩).1 ∧
    -- a second frame with the same call id is ignored: no delivery, no change
    handleMessageResponse (handleMessageResponse t ⟨id, p⟩).1 ⟨id, p'⟩ =
      ((handleMessageResponse t ⟨id, p⟩).1, []) ∧
    -- timeout wins the race: it removes the entry
    (removeMethodCall t id).lookupCall id = none ∧
    -- the losing dispatch then has no effect: no delivery, no change
    handleMessageResponse (removeMethodCall t id) ⟨id, p⟩ =
      (removeMethodCall t id, []) := by
  have hdisp : handleMessageResponse t ⟨id, p⟩ =
      (removeMethodCall t id, [(ch, p)]) := by
    simp [handleMessageResponse, h]
  refine ⟨?_, ?_, ?_, ?_, ?_, ?_⟩
  · rw [hdisp]
  · rw [hdisp]; exact lookup_remove_self t id
  · rw [hdisp]; exact remove_idem t id
  · rw [hdisp]
    exact handleMessageResponse_absent _ _ (lookup_remove_self t id)
  · exact lookup_remove_self t id
  · exact handleMessageResponse_absent _ _ (lookup_remove_self t id)

/-- Witness for C1 on a concrete table. -/
theorem pending_call_resolved_exactly_once_witness :
    CallTable.lookupCall [("a", 0), ("b", 1)] "a" = some 0 ∧
    (handleMessageResponse [("a", 0), ("b", 1)] ⟨"a", [7]⟩).2 = [(0, [7])] := by
  refine ⟨by decide, ?_⟩
  exact (pending_call_resolved_exactly_once [("a", 0), ("b", 1)] "a" 0 [7] [9]
    (by decide)).1

/-- C9: a `Response` whose call id has no pending entry leaves the table
unchanged, delivers nothing, and the dispatch loop keeps running. -/
theorem unmatched_response_no_effect (t : CallTable) (r : Response)
    (h : t.lookupCall r.callId = none) :
    dispatchMessage t (.response r) = (t, [], true) := by
  simp [dispatchMessage, handleMessageResponse_absent t r h]

/-- Witness for C9 on a concrete table and response. -/
theorem unmatched_response_no_effect_witness :
    CallTable.lookupCall [("a", 0)] "z" = none ∧
    dispatchMessage [("a", 0)] (.response ⟨"z", [1]⟩) = ([("a", 0)], [], true) := by
  refine ⟨by decide, ?_⟩
  exact unmatched_response_no_effect [("a", 0)] ⟨"z", [1]⟩ (by decide)

/-- Modelled from the spec: the backoff strategy (`internal/backoff`, not
under `src/`) is a "stateful generator of successive retry delays;
resettable".  `delaySeq` is the sequence of delays the strategy generates,
`idx` how many delays have been drawn since the last reset. -/
structure BackoffStrategy where
  delaySeq : Nat → Nat
  idx : Nat

/-- Modelled from the spec: drawing the next delay returns the next element
of the sequence and advances the strategy. -/
def BackoffStrategy.NextBackOff (b : BackoffStrategy) : Nat × BackoffStrategy :=
  (b.delaySeq b.idx, { b with idx := b.idx + 1 })

/-- Modelled from the spec: `Reset` returns the strategy to its initial
state, so the next delay drawn is the initial delay of the sequence. -/
def BackoffStrategy.Reset (b : BackoffStrategy) : BackoffStrategy :=
  { b with idx := 0 }

/-- `backoff.DefaultExponential`, the strategy `Dial` installs.  Modelled
from the spec as an exponentially growing delay sequence starting at its
initial state. -/
def DefaultExponential : BackoffStrategy :=
  ⟨fun i => 2 ^ i, 0⟩

/-- `addrConn`: the per-address Connection.  The mutex, the back-pointer to
the `ClientConn` and the `stateCh` plumbing are implicit in the embedding
(each lock-protected critical section below is one atomic function);
`cancelled` models the lifecycle context, `bs` is `ac.dopts.bs`, and the
transport is identified by a number when set. -/
structure AddrConn where
  state : ConnectivityState
  transport : Option Nat
  cancelled : Bool
  bs : BackoffStrategy

/-- `addrConn.connect`: under `ac.mu`, fail with `errConnClosing` when
`Shutdown`; do nothing when not `Idle`; from `Idle`, move to `Connecting`
and start the retry loop asynchronously.  The `Bool` records whether the
`resetTransport` goroutine was started; the function returns in all cases
(the dial itself happens in that goroutine, not here). -/
def connect (ac : AddrConn) : Except RpcError AddrConn × Bool :=
  if ac.state = .Shutdown then (.error .connClosing, false)
  else if ac.state ≠ .Idle then (.ok ac, false)
  else (.ok { ac with state := .Connecting }, true)

/-- `addrConn.teardown`: under `ac.mu`, a no-op when already `Shutdown`;
otherwise move to `Shutdown`, clear the transport reference, cancel the
lifecycle context, and close the transport that was current, if any.  The
returned list holds the transports closed by this call. -/
def teardown (ac : AddrConn) : AddrConn × List Nat :=
  if ac.state = .Shutdown then (ac, [])
  else
    ({ ac with state := .Shutdown, transport := none, cancelled := true },
      ac.transport.toList)

/-- The `onClose` callback installed by `createTransport`, run once when the
transport closes: under `ac.mu`, move to `Idle` when the state is `Ready`
(otherwise leave the state alone), then fire the `reconnect` event that
unblocks `resetTransport`.  The `Bool` records that the event fired. -/
def onClose (ac : AddrConn) : AddrConn × Bool :=
  (if ac.state = .Ready then { ac with state := .Idle } else ac, true)

/-- The loop-top critical section of `resetTransport`: exit when `Shutdown`
(the `Option` is `none`); otherwise draw the next backoff delay from the
strategy, clear the transport reference, move to `Connecting`, and proceed
to dial with the drawn delay in hand. -/
def retryTop (ac : AddrConn) : AddrConn × Option Nat :=
  if ac.state = .Shutdown then (ac, none)
  else
    let (delay, bs1) := ac.bs.NextBackOff
    ({ ac with bs := bs1, transport := none, state := .Connecting }, some delay)

/-- The dial-failure critical section of `resetTransport`: exit when a
shutdown raced in (`false`); otherwise move to `TransientFailure` and
proceed to the backoff wait (`true`). -/
def retryFail (ac : AddrConn) : AddrConn × Bool :=
  if ac.state = .Shutdown then (ac, false)
  else ({ ac with state := .TransientFailure }, true)

/-- The dial-success critical section of `resetTransport`: when a shutdown
raced in, close the new transport `tr` and exit (`false`); otherwise adopt
`tr` as current, reset the backoff strategy, and move to `Ready`
(`true`). -/
def retrySuccess (ac : AddrConn) (tr : Nat) : AddrConn × Bool :=
  if ac.state = .Shutdown then (ac, false)
  else
    ({ ac with transport := some tr, bs := ac.bs.Reset, state := .Ready }, true)

/-- The outcome of `createTransport`'s dial attempt. -/
inductive DialResult
  | fail
  | ok (tr : Nat)
deriving DecidableEq, Repr

/-- Where one iteration of `resetTransport` ends up. -/
inductive RetryOutcome
  | exited
  | waitBackoff (delay : Nat)
  | blockedReady (tr : Nat)
deriving DecidableEq, Repr

/-- One full iteration of the `resetTransport` for-loop, the dial outcome
given: the loop-top section, then the failure section (followed by the
select on the backoff timer and the cancelled context) or the success
section (after which the loop blocks on the reconnect event). -/
def retryIteration (ac : AddrConn) (dial : DialResult) : AddrConn × RetryOutcome :=
  match retryTop ac with
  | (ac1, none) => (ac1, .exited)
  | (ac1, some delay) =>
    match dial with
    | .fail =>
      let (ac2, cont) := retryFail ac1
      if cont then
        if ac2.cancelled then (ac2, .exited) else (ac2, .waitBackoff delay)
      else (ac2, .exited)
    | .ok tr =>
      let (ac2, adopted) := retrySuccess ac1 tr
      if adopted then (ac2, .blockedReady tr) else (ac2, .exited)

/-- The atomic operations that can touch an `addrConn`'s state: `connect`,
`teardown`, the transport-close notification, and the three critical
sections of the retry loop. -/
inductive Op
  | opConnect
  | opTeardown
  | opOnClose
  | opRetryTop
  | opRetryFail
  | opRetrySuccess (tr : Nat)
deriving DecidableEq, Repr

/-- The state reached by one atomic operation (results and effects
projected away). -/
def applyOp (op : Op) (ac : AddrConn) : AddrConn :=
  match op with
  | .opConnect =>
    match connect ac with
    | (.ok ac1, _) => ac1
    | (.error _, _) => ac
  | .opTeardown => (teardown ac).1
  | .opOnClose => (onClose ac).1
  | .opRetryTop => (retryTop ac).1
  | .opRetryFail => (retryFail ac).1
  | .opRetrySuccess tr => (retrySuccess ac tr).1

/-- C4: `connect` returns the closing error in `Shutdown`; it succeeds with
no state change in `Connecting`, `Ready` and `TransientFailure`; from `Idle`
it moves the state to `Connecting`, starts the retry loop asynchronously and
returns. -/
theorem connect_state_cases (ac : AddrConn) :
    (ac.state = .Shutdown → connect ac = (.error .connClosing, false)) ∧
    (ac.state = .Connecting ∨ ac.state = .Ready ∨ ac.state = .TransientFailure →
      connect ac = (.ok ac, false)) ∧
    (ac.state = .Idle →
      connect ac = (.ok { ac with state := .Connecting }, true)) := by
  refine ⟨?_, ?_, ?_⟩ <;> intro h
  · simp [connect, h]
  · rcases h with h | h | h <;> simp [connect, h]
  · simp [connect, h]

/-- Witness for C4: `connect` on a concrete `Idle` Connection. -/
theorem connect_state_cases_witness :
    (⟨.Idle, none, false, DefaultExponential⟩ : AddrConn).state = .Idle ∧
    connect ⟨.Idle, none, false, DefaultExponential⟩ =
      (.ok ⟨.Connecting, none, false, DefaultExponential⟩, true) :=
  ⟨rfl, (connect_state_cases ⟨.Idle, none, false, DefaultExponential⟩).2.2 rfl⟩

/-- C5: the first `teardown` moves the Connection to `Shutdown`, clears the
transport reference, cancels the lifecycle context and closes the transport
that existed; a second `teardown` is a no-op; and `Shutdown` is terminal:
no atomic operation (connect, teardown, close notification, any retry-loop
section) moves the state out of `Shutdown`. -/
theorem teardown_idempotent_shutdown_terminal (ac : AddrConn) :
    (ac.state ≠ .Shutdown →
      (teardown ac).1.state = .Shutdown ∧
      (teardown ac).1.transport = none ∧
      (teardown ac).1.cancelled = true ∧
      (teardown ac).2 = ac.transport.toList) ∧
    teardown (teardown ac).1 = ((teardown ac).1, []) ∧
    (∀ op : Op, ac.state = .Shutdown → (applyOp op ac).state = .Shutdown) := by
  have key : ∀ x : AddrConn, x.state = .Shutdown → teardown x = (x, []) := by
    intro x hx
    simp [teardown, hx]
  refine ⟨fun h => ?_, ?_, fun op h => ?_⟩
  · simp [teardown, h]
  · have hsd : (teardown ac).1.state = .Shutdown := by
      by_cases h : ac.state = .Shutdown
      · simp [teardown, h]
      · simp [teardown, h]
    exact key _ hsd
  · cases op <;>
      simp [applyOp, connect, teardown, onClose, retryTop, retryFail,
        retrySuccess, h]

/-- Witness for C5: teardown of a concrete `Ready` Connection holding
transport 5, and terminality of the state it reaches. -/
theorem teardown_idempotent_shutdown_terminal_witness :
    ((⟨.Ready, some 5, false, DefaultExponential⟩ : AddrConn).state ≠ .Shutdown) ∧
    (teardown ⟨.Ready, some 5, false, DefaultExponential⟩).1.state = .Shutdown ∧
    (teardown ⟨.Ready, some 5, false, DefaultExponential⟩).2 = [5] ∧
    (applyOp .opConnect
      (teardown ⟨.Ready, some 5, false, DefaultExponential⟩).1).state = .Shutdown := by
  have h := teardown_idempotent_shutdown_terminal
    (⟨.Ready, some 5, false, DefaultExponential⟩ : AddrConn)
  have h2 := teardown_idempotent_shutdown_terminal
    (teardown (⟨.Ready, some 5, false, DefaultExponential⟩ : AddrConn)).1
  have hne : (⟨.Ready, some 5, false, DefaultExponential⟩ : AddrConn).state ≠ .Shutdown := by
    intro hc
    exact ConnectivityState.noConfusion hc
  refine ⟨hne, (h.1 hne).1, ?_, h2.2.2 .opConnect (h.1 hne).1⟩
  rw [(h.1 hne).2.2.2]
  rfl

/-- C2 counterexample: when a concrete `Ready` Connection's transport closes,
the close notification moves the state to `Idle`, not to `Connecting`. -/
theorem transport_close_goes_idle_not_connecting :
    (onClose ⟨.Ready, some 3, false, DefaultExponential⟩).1.state = .Idle ∧
    (onClose ⟨.Ready, some 3, false, DefaultExponential⟩).1.state ≠ .Connecting := by
  refine ⟨rfl, fun hc => ConnectivityState.noConfusion hc⟩

/-- C2 (amended): when a `Ready` Connection's transport fails, the close
notification moves the state `Ready → Idle` and fires the reconnect event,
unblocking the retry loop; the loop's next iteration, needing no caller
intervention, moves the state on to `Connecting` and proceeds to redial
(it draws a backoff delay rather than exiting). -/
theorem transport_close_restarts_retry (ac : AddrConn) (h : ac.state = .Ready) :
    (onClose ac).2 = true ∧
    (onClose ac).1.state = .Idle ∧
    (retryTop (onClose ac).1).1.state = .Connecting ∧
    (retryTop (onClose ac).1).2 = some (ac.bs.delaySeq ac.bs.idx) := by
  simp [onClose, h, retryTop, BackoffStrategy.NextBackOff]

/-- Witness for C2 on a concrete `Ready` Connection. -/
theorem transport_close_restarts_retry_witness :
    (⟨.Ready, some 3, false, DefaultExponential⟩ : AddrConn).state = .Ready ∧
    (retryTop (onClose ⟨.Ready, some 3, false, DefaultExponential⟩).1).1.state =
      .Connecting :=
  ⟨rfl, (transport_close_restarts_retry ⟨.Ready, some 3, false, DefaultExponential⟩
    rfl).2.2.1⟩

/-- C7: every retry-loop iteration that does not exit draws exactly one
backoff delay at its top, before and independently of the dial outcome; a
successful dial resets the strategy to its initial state, so the delay the
next iteration draws (the next failure-triggered delay) is the strategy's
initial delay, however many failures preceded the success. -/
theorem backoff_drawn_each_iteration_reset_on_success
    (ac : AddrConn) (tr : Nat) (h : ac.state ≠ .Shutdown) :
    (retryTop ac).2 = some (ac.bs.delaySeq ac.bs.idx) ∧
    (retryTop ac).1.bs.idx = ac.bs.idx + 1 ∧
    (retryIteration ac .fail).1.bs.idx = ac.bs.idx + 1 ∧
    (retryIteration ac (.ok tr)).1.bs.idx = 0 ∧
    (retryIteration ac (.ok tr)).1.bs.delaySeq = ac.bs.delaySeq ∧
    (retryTop (retryIteration ac (.ok tr)).1).2 = some (ac.bs.delaySeq 0) := by
  obtain ⟨s, t, c, d, i⟩ := ac
  have h' : s ≠ .Shutdown := h
  refine ⟨?_, ?_, ?_, ?_, ?_, ?_⟩ <;>
    cases c <;>
    simp [retryIteration, retryTop, retryFail, retrySuccess,
      BackoffStrategy.Reset, BackoffStrategy.NextBackOff, h']

/-- Witness for C7: after three failure-grown draws, a success resets the
strategy and the next delay drawn is the initial delay `2 ^ 0 = 1`. -/
theorem backoff_reset_on_success_witness :
    ((⟨.TransientFailure, none, false, ⟨fun i => 2 ^ i, 3⟩⟩ : AddrConn).state ≠
      .Shutdown) ∧
    (retryTop (⟨.TransientFailure, none, false, ⟨fun i => 2 ^ i, 3⟩⟩ :
      AddrConn)).2 = some 8 ∧
    (retryTop (retryIteration (⟨.TransientFailure, none, false,
      ⟨fun i => 2 ^ i, 3⟩⟩ : AddrConn) (.ok 7)).1).2 = some 1 := by
  have hne : ((⟨.TransientFailure, none, false, ⟨fun i => 2 ^ i, 3⟩⟩ :
      AddrConn).state ≠ .Shutdown) := by
    intro hc
    exact ConnectivityState.noConfusion hc
  have h := backoff_drawn_each_iteration_reset_on_success
    (⟨.TransientFailure, none, false, ⟨fun i => 2 ^ i, 3⟩⟩ : AddrConn) 7 hne
  exact ⟨hne, h.1, h.2.2.2.2.2⟩

/-- `ClientConn`: the user-facing handle, with its current Connection
(nullable — `Close` sets it to nil) and the pending-call table. -/
structure ClientConn where
  conn : Option AddrConn
  methodCalls : CallTable

/-- The result of `MarshalProtoMessage(args)`. -/
inductive MarshalResult
  | ok (bytes : List Nat)
  | err
deriving DecidableEq, Repr

/-- Which arm of `Invoke`'s final `select` fires: a payload arrives on the
wait channel (and its unmarshal into `reply` succeeds or not), or the
2-second timer fires first. -/
inductive WaitResult
  | delivered (payload : List Nat) (unmarshalOk : Bool)
  | timedOut
deriving DecidableEq, Repr

/-- How a call to `Invoke` ends: a normal return of nil, a returned error,
or a nil-pointer dereference (a runtime panic, not a return). -/
inductive InvokeOutcome
  | success
  | failure (e : RpcError)
  | nilDeref
deriving DecidableEq, Repr

/-- `ClientConn.Invoke`: read `cc.conn.state` (a nil-pointer dereference
when `cc.conn` is nil); return the not-ready error unless the state is
`Ready`; marshal the args; build the `Request` envelope under the fresh call
id, register the pending call (on the fresh channel `ch`), write the frame,
and wait.  On timeout, deregister the call and return the timeout error.
`callID` stands for the fresh UUID and `wait` for which select arm fires;
the last component lists the frames written to the transport. -/
def Invoke (cc : ClientConn) (callID : String) (ch : Nat)
    (argsMarshal : MarshalResult) (wait : WaitResult) :
    ClientConn × InvokeOutcome × List (List Nat) :=
  match cc.conn with
  | none => (cc, .nilDeref, [])
  | some ac =>
    if ac.state ≠ .Ready then (cc, .failure .notReady, [])
    else
      match argsMarshal with
      | .err => (cc, .failure .marshalErr, [])
      | .ok payload =>
        let cc1 : ClientConn :=
          { cc with methodCalls := registerMethodCall cc.methodCalls callID ch }
        let written := [payload]
        match wait with
        | .delivered _ true => (cc1, .success, written)
        | .delivered _ false => (cc1, .failure .unmarshalErr, written)
        | .timedOut =>
          ({ cc1 with methodCalls := removeMethodCall cc1.methodCalls callID },
            .failure .callTimeout, written)

/-- `ClientConn.Close`: detach the current Connection (set `cc.conn` to nil)
and tear it down.  The second component records the teardown performed on
the detached Connection, if one existed. -/
def Close (cc : ClientConn) : ClientConn × Option (AddrConn × List Nat) :=
  match cc.conn with
  | none => ({ cc with conn := none }, none)
  | some ac => ({ cc with conn := none }, some (teardown ac))

/-- C3: on a concrete live handle, `Close` nils out `cc.conn`, so a
subsequent `Invoke` dereferences the nil Connection pointer — a runtime
panic — instead of returning the closing error the spec promises. -/
theorem invoke_after_close_panics :
    (Close ⟨some ⟨.Ready, some 0, false, DefaultExponential⟩, []⟩).1.conn = none ∧
    (Invoke (Close ⟨some ⟨.Ready, some 0, false, DefaultExponential⟩, []⟩).1
      "id" 0 (.ok [1]) .timedOut).2.1 = .nilDeref ∧
    InvokeOutcome.nilDeref ≠ .failure .connClosing := by
  refine ⟨rfl, rfl, fun hc => InvokeOutcome.noConfusion hc⟩

/-- C8: an `Invoke` issued while the handle's Connection is not `Ready`
returns the not-ready error immediately, leaves the handle (in particular
the pending-call table) unchanged, and writes no frame. -/
theorem invoke_not_ready (cc : ClientConn) (ac : AddrConn) (callID : String)
    (ch : Nat) (m : MarshalResult) (w : WaitResult)
    (hc : cc.conn = some ac) (hs : ac.state ≠ .Ready) :
    Invoke cc callID ch m w = (cc, .failure .notReady, []) := by
  simp [Invoke, hc, hs]

/-- Witness for C8 on a concrete handle in `TransientFailure`. -/
theorem invoke_not_ready_witness :
    ((⟨some ⟨.TransientFailure, none, false, DefaultExponential⟩, []⟩ :
      ClientConn).conn = some ⟨.TransientFailure, none, false, DefaultExponential⟩) ∧
    Invoke (⟨some ⟨.TransientFailure, none, false, DefaultExponential⟩, []⟩ :
        ClientConn) "a" 0 (.ok [1]) .timedOut =
      (⟨some ⟨.TransientFailure, none, false, DefaultExponential⟩, []⟩,
        .failure .notReady, []) := by
  refine ⟨rfl, ?_⟩
  exact invoke_not_ready _ _ "a" 0 _ _ rfl
    (fun hc => ConnectivityState.noConfusion hc)

/-- `ConnectOptions` (the part of the dial options handed to the transport):
the transport-security object is opaque to this layer. -/
structure ConnectOptions where
  transportCreds : Option Nat
deriving DecidableEq, Repr

/-- `dialOptions`: connect options and the backoff strategy. -/
structure DialOptions where
  copts : ConnectOptions
  bs : BackoffStrategy

/-- `defaultDialOptions`: empty connect options (the buffer-size fields are
commented out in the source). -/
def defaultDialOptions : DialOptions :=
  ⟨⟨none⟩, DefaultExponential⟩

/-- A `DialOption` mutates the dial options, as `opt.apply(&cc.dopts)`
does. -/
abbrev DialOption := DialOptions → DialOptions

/-- `ClientConn.newAddrConn`: builds the `addrConn` at `Idle` with no
transport and a live lifecycle context, stores it on the handle, and starts
`listenForRead`.  It has no failing path: it always returns a nil error. -/
def newAddrConn (addr : String) : Except String AddrConn :=
  .ok ⟨.Idle, none, false, DefaultExponential⟩

/-- `Dial`: build the handle with an empty pending-call table, apply the
dial options, install `backoff.DefaultExponential`, create the `addrConn`
(returning the "Could not establish a connection" error if that failed),
call `connect` on it and return the handle. -/
def Dial (target : String) (opts : List DialOption) : Except String ClientConn :=
  let dopts := { opts.foldl (fun d f => f d) defaultDialOptions with
    bs := DefaultExponential }
  match newAddrConn target with
  | .error _ => .error "Could not establish a connection"
  | .ok ac =>
    let ac1 :=
      match connect { ac with bs := dopts.bs } with
      | (.ok a, _) => a
      | (.error _, _) => { ac with bs := dopts.bs }
    .ok ⟨some ac1, []⟩

/-- C10: for every target and every list of dial options, `newAddrConn`
returns a nil error, so `Dial`'s "Could not establish a connection" branch
is unreachable and `Dial` returns a (non-nil) handle, already `Connecting`,
with a nil error. -/
theorem dial_never_fails (target : String) (opts : List DialOption) :
    newAddrConn target = .ok ⟨.Idle, none, false, DefaultExponential⟩ ∧
    Dial target opts =
      .ok ⟨some ⟨.Connecting, none, false, DefaultExponential⟩, []⟩ :=
  ⟨rfl, rfl⟩

/-- The bookkeeping of `listenForRead` and the `handleRead` tasks it
starts: `nextChan` numbers the `done` channels made so far, `loops` records
the done channel of every `handleRead` task started, and `closedChans` the
done channels that were closed (closing a loop's done channel is the only
thing that stops it). -/
structure ListenState where
  nextChan : Nat
  loops : List Nat
  closedChans : List Nat
deriving DecidableEq, Repr

/-- One iteration of `listenForRead`'s for-loop on receiving connectivity
state `s`.  Per Go scoping: `var done` declares a fresh nil channel variable
on every iteration; in the Ready branch, `done := make(...)` declares a NEW
variable that shadows it and `go cc.handleRead(done)` starts a task on that
fresh channel; in the else branch, `close(done)` refers to the outer
variable, which is still nil, so nothing is closed. -/
def listenStep (st : ListenState) (s : ConnectivityState) : ListenState :=
  let outerDone : Option Nat := none
  if s = .Ready then
    { st with nextChan := st.nextChan + 1, loops := st.loops ++ [st.nextChan] }
  else
    match outerDone with
    | some ch => { st with closedChans := st.closedChans ++ [ch] }
    | none => st

/-- `listenForRead`, run over a finite prefix of the connectivity states
received on `cc.csCh`. -/
def listenForRead (states : List ConnectivityState) : ListenState :=
  states.foldl listenStep ⟨0, [], []⟩

/-- A `handleRead` task is active while its done channel has not been
closed. -/
def activeReadLoops (st : ListenState) : Nat :=
  (st.loops.filter (fun ch => !st.closedChans.contains ch)).length

/-- C6: after the handle observes the states Ready, Idle, Ready, two
`handleRead` dispatch loops are active at once and no done channel was ever
closed — leaving `Ready` did not stop the previous loop, because the `done`
variable `close(done)` refers to is redeclared nil on every iteration and
shadowed in the Ready branch. -/
theorem two_read_loops_active :
    activeReadLoops (listenForRead [.Ready, .Idle, .Ready]) = 2 ∧
    (listenForRead [.Ready, .Idle, .Ready]).closedChans = [] := by
  decide

end Wsrpc
